import Mathlib

/-!
Verification development for the smretriever repository (a SurveyMonkey client
that delegates to an embedded R runtime through rpy2 and converts R data frames
to pandas DataFrames).  The definitions below are a shallow embedding of
src/smretriever/client.py: R data frames are association lists of named typed
columns, pandas DataFrames are python dicts of named cell lists, and the
conversion and NA-reconciliation loops are translated statement by statement.
-/

namespace Smretriever

/-- A value held in a cell of an R vector, as seen from Python through rpy2.
The five na constructors are the rpy2 singletons NA_Integer, NA_Real,
NA_Logical, NA_Character and NA_Complex stored in SurveyMonkeyClient.na_types;
the remaining constructors are ordinary scalars (doubles are modelled as
rationals, complex values as pairs of rationals). -/
inductive RCell where
  | naInt
  | naReal
  | naLog
  | naChar
  | naComplex
  | intVal (n : Int)
  | realVal (q : ℚ)
  | logVal (b : Bool)
  | charVal (s : String)
  | complexVal (re im : ℚ)
  deriving DecidableEq

deriving instance DecidableEq for Except

/-- A cell of a pandas DataFrame obtained from an R data frame.  Initially each
cell holds the value carried over from R (fromR); replace_r_na_with_pandas_na
overwrites recognised missing cells with np.nan (npNan) or pd.NA (pdNA).
A fromR (Except.error e) cell records an R cell whose access from Python
raises, matching the try blocks of the conversion loop in client.py. -/
inductive PCell where
  | fromR (c : Except String RCell)
  | npNan
  | pdNA
  deriving DecidableEq

/-- An R data-frame column as exposed by rpy2: rclass is r_vector.rclass[0]
and cells are the values r_vector[j] (an access that raises is an
Except.error). -/
structure RColumn where
  rclass : String
  cells : List (Except String RCell)
  deriving DecidableEq

/-- An R data frame: r_dataframe.names paired with the columns, in order. -/
abbrev RDF := List (String × RColumn)

/-- A pandas DataFrame as built by pd.DataFrame(dict(...)): a python dict from
column name to the list of cells, in insertion order. -/
abbrev PDF := List (String × List PCell)

/-- Lookup of the first entry with the given key in an association list. -/
def alistLookup {κ α : Type} [DecidableEq κ] : List (κ × α) → κ → Option α
  | [], _ => none
  | p :: ps, k => if p.1 = k then some p.2 else alistLookup ps k

/-- Python dict assignment d[k] = v: update the entry in place when the key is
present, otherwise append a new entry. -/
def dictInsert {κ α : Type} [DecidableEq κ] (d : List (κ × α)) (k : κ) (v : α) :
    List (κ × α) :=
  if k ∈ d.map Prod.fst then
    d.map (fun p => if p.1 = k then (p.1, v) else p)
  else d ++ [(k, v)]

/-- Python dict(pairs): successive insertion into an empty dict. -/
def pyDict {κ α : Type} [DecidableEq κ] (l : List (κ × α)) : List (κ × α) :=
  l.foldl (fun d p => dictInsert d p.1 p.2) []

/-- The conversion pd.DataFrame(dict(zip(r.names, list(r)))) used by
get_available_surveys, filter_surveys and download_survey_data: every R cell is
carried over unchanged into a pandas cell. -/
def dfToPandas (rdf : RDF) : PDF :=
  pyDict (rdf.map (fun p => (p.1, p.2.cells.map PCell.fromR)))

/-- The four type branches of the conversion loop in
_replace_r_na_with_pandas_na. -/
inductive NaBranch where
  | num
  | chr
  | lgl
  | fctr
  deriving DecidableEq

/-- Dispatch on vec_type = r_vector.rclass[0], exactly as the if/elif chain of
_replace_r_na_with_pandas_na; none for any other class (the chain has no else
branch). -/
def branchOf (rclass : String) : Option NaBranch :=
  if rclass = "numeric" ∨ rclass = "integer" then some NaBranch.num
  else if rclass = "character" then some NaBranch.chr
  else if rclass = "logical" then some NaBranch.lgl
  else if rclass = "factor" then some NaBranch.fctr
  else none

/-- The python comparison value <= 0 used in the factor branch: defined on
number-like values, raises TypeError on strings and complex values
(Except.error).  The NA singletons compare as in rpy2: NA_Integer and
NA_Logical behave as the integer -2147483648, NA_Real as a float nan (every
ordered comparison false). -/
def pyLeZero : RCell → Except String Bool
  | RCell.naInt => Except.ok true
  | RCell.naLog => Except.ok true
  | RCell.naReal => Except.ok false
  | RCell.intVal n => Except.ok (decide (n ≤ 0))
  | RCell.realVal q => Except.ok (decide (q ≤ 0))
  | RCell.logVal b => Except.ok (decide (b = false))
  | RCell.naChar => Except.error ("TypeError")
  | RCell.charVal _ => Except.error ("TypeError")
  | RCell.naComplex => Except.error ("TypeError")
  | RCell.complexVal _ _ => Except.error ("TypeError")

/-- The per-branch NA test of the conversion loop.  num tests
value is NA_Real or value is NA_Integer; chr tests value is NA_Character;
lgl tests value is NA_Logical; fctr tests value <= 0. -/
def naCheck : NaBranch → RCell → Except String Bool
  | NaBranch.num, v => Except.ok (decide (v = RCell.naReal ∨ v = RCell.naInt))
  | NaBranch.chr, v => Except.ok (decide (v = RCell.naChar))
  | NaBranch.lgl, v => Except.ok (decide (v = RCell.naLog))
  | NaBranch.fctr, v => pyLeZero v

/-- The missing-value marker written by each branch: np.nan in the numeric
branch, pd.NA in the character, logical and factor branches. -/
def markerOf : NaBranch → PCell
  | NaBranch.num => PCell.npNan
  | NaBranch.chr => PCell.pdNA
  | NaBranch.lgl => PCell.pdNA
  | NaBranch.fctr => PCell.pdNA

/-- One iteration of the inner row loop try block: some marker when the cell is
recognised as NA (the assignment runs), none when it is not or when the access
or the check raises (the exception is caught, logged and the cell skipped). -/
def cellTry (b : NaBranch) (c : Except String RCell) : Option PCell :=
  match c with
  | Except.error _ => none
  | Except.ok v =>
    match naCheck b v with
    | Except.error _ => none
    | Except.ok true => some (markerOf b)
    | Except.ok false => none

/-- pandas_df.loc[j, col_name] = v: update the cell when the column exists
(row labels are the default range index), and create the column padded with
NaN when it does not. -/
def pandasSetCell (df : PDF) (j : Nat) (name : String) (v : PCell) : PDF :=
  if name ∈ df.map Prod.fst then
    df.map (fun p => if p.1 = name then (p.1, p.2.set j v) else p)
  else df ++ [(name, List.replicate j PCell.npNan ++ [v])]

/-- Apply one row iteration of the conversion loop to the whole frame. -/
def applyCellDF (b : NaBranch) (name : String) (acc : PDF)
    (p : Nat × Except String RCell) : PDF :=
  match cellTry b p.2 with
  | some v => pandasSetCell acc p.1 name v
  | none => acc

/-- Process one column of the R data frame: the body of the outer loop
for i, col_name in enumerate(col_names) of _replace_r_na_with_pandas_na. -/
def processColumn (df : PDF) (name : String) (col : RColumn) : PDF :=
  match branchOf col.rclass with
  | none => df
  | some b => col.cells.enum.foldl (applyCellDF b name) df

/-- SurveyMonkeyClient._replace_r_na_with_pandas_na. -/
def replace_r_na_with_pandas_na (pandas_df : PDF) (r_dataframe : RDF) : PDF :=
  r_dataframe.foldl (fun acc p => processColumn acc p.1 p.2) pandas_df

/-- stringr str_detect restricted to a literal pattern: case-sensitive
substring containment. -/
def strDetect (s pat : String) : Bool :=
  decide (pat.data <:+: s.data)

/-- Row indices kept by a dplyr filter over the given column: those whose cell
satisfies the predicate. -/
def keepRows (col : RColumn) (pred : Except String RCell → Bool) : List Nat :=
  (List.range col.cells.length).filter (fun j =>
    match col.cells.get? j with
    | some c => pred c
    | none => false)

/-- dplyr filter on one column: keep the rows whose cell in the named column
satisfies the predicate (an NA condition is not TRUE, so the row is dropped);
referencing a column absent from the data frame is an R error. -/
def rFilterOn (rdf : RDF) (cn : String) (pred : Except String RCell → Bool) :
    Except String RDF :=
  match alistLookup rdf cn with
  | none => Except.error ("object not found: " ++ cn)
  | some col =>
    Except.ok (rdf.map (fun p =>
      (p.1, RColumn.mk p.2.rclass ((keepRows col pred).filterMap p.2.cells.get?))))

/-- SurveyMonkeyClient.get_available_surveys: the R result of browse_surveys
(the argument) converted to pandas. -/
def get_available_surveys (r_surveys : RDF) : PDF :=
  dfToPandas r_surveys

/-- Row predicate of the R filter title %>% str_detect(keyword). -/
def titlePred (keyword : String) : Except String RCell → Bool
  | Except.ok (RCell.charVal s) => strDetect s keyword
  | _ => false

/-- SurveyMonkeyClient.filter_surveys: run the R filter
surveys %>% filter(title %>% str_detect(keyword)) on the surveys table and
convert the result to pandas. -/
def filter_surveys (surveys : RDF) (keyword : String) : Except String PDF :=
  match rFilterOn surveys ("title") (titlePred keyword) with
  | Except.error e => Except.error e
  | Except.ok filtered => Except.ok (dfToPandas filtered)

/-- Row predicate of the R filter response_status=="completed". -/
def completedPred : Except String RCell → Bool
  | Except.ok (RCell.charVal s) => decide (s = "completed")
  | _ => false

/-- SurveyMonkeyClient.download_survey_data: the R code keeps only completed
responses, then the result is converted to pandas and NA-reconciled.  The
parsed survey table produced by fetch_survey_obj and parse_survey is the
argument. -/
def download_survey_data (parsed : RDF) : Except String PDF :=
  match rFilterOn parsed ("response_status") completedPred with
  | Except.error e => Except.error e
  | Except.ok filtered =>
    Except.ok (replace_r_na_with_pandas_na (dfToPandas filtered) filtered)

/-- The value stored by download_multiple_surveys for one id: the downloaded
frame, or None when download_survey_data raises (the except branch). -/
def downloadOutcome (dl : Nat → Except String PDF) (i : Nat) : Option PDF :=
  match dl i with
  | Except.ok df => some df
  | Except.error _ => none

/-- SurveyMonkeyClient.download_multiple_surveys: loop over the ids and store
the downloaded frame, or None when the download raises (the exception is
caught and the loop continues).  dl is the behaviour of
download_survey_data on each id. -/
def download_multiple_surveys (dl : Nat → Except String PDF)
    (survey_ids : List Nat) : List (Nat × Option PDF) :=
  survey_ids.foldl (fun d i => dictInsert d i (downloadOutcome dl i)) []

/-- The package cache of RPackageManager (self.packages); package handles are
opaque numbers. -/
structure RPMState where
  packages : List (String × Nat)
  deriving DecidableEq

/-- Side effects of import_package observable from outside. -/
inductive RAction where
  | importAttempt (name : String)
  | installPackages (name : String)
  deriving DecidableEq

/-- Environment for importr: the result of importr before any installation and
after utils.install_packages has run (none means the call raises). -/
structure REnv where
  importrPre : String → Option Nat
  importrPost : String → Option Nat

/-- RPackageManager.import_package: return the cached handle when present;
otherwise try importr, and on failure install the package and retry importr
(a failure of the retry propagates). -/
def import_package (env : REnv) (st : RPMState) (package_name : String) :
    Except String (Nat × RPMState × List RAction) :=
  match alistLookup st.packages package_name with
  | some pkg => Except.ok (pkg, st, [])
  | none =>
    match env.importrPre package_name with
    | some pkg =>
      Except.ok (pkg, RPMState.mk (dictInsert st.packages package_name pkg),
        [RAction.importAttempt package_name])
    | none =>
      match env.importrPost package_name with
      | some pkg =>
        Except.ok (pkg, RPMState.mk (dictInsert st.packages package_name pkg),
          [RAction.importAttempt package_name, RAction.installPackages package_name,
            RAction.importAttempt package_name])
      | none => Except.error ("PackageNotInstalledError: " ++ package_name)

/-- Outcome of running a python call: normal return, an uncaught exception, or
process termination via sys.exit. -/
inductive PyOutcome (α : Type) where
  | ok (a : α)
  | raised (msg : String)
  | exited (code : Nat)
  deriving DecidableEq

/-- The na_types dictionary stored by SurveyMonkeyClient.__init__. -/
def naTypesInit : List (String × RCell) :=
  [("integer", RCell.naInt), ("real", RCell.naReal), ("logical", RCell.naLog),
    ("character", RCell.naChar), ("complex", RCell.naComplex)]

/-- The fields a successfully constructed SurveyMonkeyClient holds. -/
structure Client where
  naTypes : List (String × RCell)
  manager : RPMState
  tidyverse : Nat
  ggplot2 : Nat
  surveymonkey : Nat
  readxl : Nat
  deriving DecidableEq

/-- Outcomes of the individual steps of the try block of
SurveyMonkeyClient.__init__ (an error value means that step raises). -/
structure InitEnv where
  rpy2Import : Except String Unit
  managerInit : Except String RPMState
  importPkg : String → Except String Nat
  setToken : Except String Unit
  oauthToken : Option String

/-- The body of the try block of SurveyMonkeyClient.__init__: import rpy2,
build the package manager, import the four required packages, and set the
OAuth token option when one was given. -/
def initTryBody (env : InitEnv) : Except String Client := do
  let _ ← env.rpy2Import
  let mgr ← env.managerInit
  let tv ← env.importPkg ("tidyverse")
  let gg ← env.importPkg ("ggplot2")
  let sm ← env.importPkg ("surveymonkey")
  let rd ← env.importPkg ("readxl")
  let _ ← if env.oauthToken.isSome then env.setToken else Except.ok ()
  Except.ok (Client.mk naTypesInit mgr tv gg sm rd)

/-- SurveyMonkeyClient.__init__: any exception inside the try block is caught
and turned into sys.exit(1); it never propagates to the caller. -/
def clientInit (env : InitEnv) : PyOutcome Client :=
  match initTryBody env with
  | Except.ok c => PyOutcome.ok c
  | Except.error _ => PyOutcome.exited 1

/-- The NA sentinel the R runtime reports for a cell of a column of the given
declared class (rpy2 exposes the NA of a factor through the integer NA code). -/
def declaredNA (rclass : String) : Option RCell :=
  if rclass = "numeric" then some RCell.naReal
  else if rclass = "integer" then some RCell.naInt
  else if rclass = "character" then some RCell.naChar
  else if rclass = "logical" then some RCell.naLog
  else if rclass = "factor" then some RCell.naInt
  else none

/-- The host missing marker expected per declared class: np.nan for numeric
and integer columns, pd.NA otherwise. -/
def hostMarker (rclass : String) : PCell :=
  if rclass = "numeric" ∨ rclass = "integer" then PCell.npNan else PCell.pdNA

/-- Well-formedness of a value in an R column of the given class, as the R
runtime guarantees it: values match the class, and the integer codes of
existing factor levels are positive. -/
def wfRCell (rclass : String) (v : RCell) : Bool :=
  if rclass = "numeric" then
    match v with
    | RCell.realVal _ => true
    | RCell.naReal => true
    | _ => false
  else if rclass = "integer" then
    match v with
    | RCell.intVal _ => true
    | RCell.naInt => true
    | _ => false
  else if rclass = "character" then
    match v with
    | RCell.charVal _ => true
    | RCell.naChar => true
    | _ => false
  else if rclass = "logical" then
    match v with
    | RCell.logVal _ => true
    | RCell.naLog => true
    | _ => false
  else if rclass = "factor" then
    match v with
    | RCell.intVal n => decide (1 ≤ n)
    | RCell.naInt => true
    | _ => false
  else true

/-- Whether a value is the declared NA of its column class. -/
def isDeclaredNA (rclass : String) (v : RCell) : Bool :=
  match declaredNA rclass with
  | some na => decide (v = na)
  | none => false

/-- The per-cell result of the conversion loop: the branch marker when the
branch recognises the cell as NA, otherwise the carried-over value. -/
def cellResult (rclass : String) (c : Except String RCell) : PCell :=
  match branchOf rclass with
  | none => PCell.fromR c
  | some b =>
    match cellTry b c with
    | some v => v
    | none => PCell.fromR c

/-- Pointwise description of one column pass of the conversion loop. -/
def updCells (b : NaBranch) :
    List (Except String RCell) → List PCell → List PCell
  | [], ps => ps
  | _ :: _, [] => []
  | c :: cs, p :: ps =>
    (match cellTry b c with
      | some v => v
      | none => p) :: updCells b cs ps

/-- Cell access in a pandas frame: column by name, then row. -/
def dfGet (df : PDF) (name : String) (j : Nat) : Option PCell :=
  match alistLookup df name with
  | some cells => cells.get? j
  | none => none

/-- Column names (dict keys) of a pandas frame. -/
def dfKeys (df : PDF) : List String :=
  df.map Prod.fst

/-- List-level image of one row iteration of the conversion loop. -/
def applyCellList (b : NaBranch) (acc : List PCell)
    (p : Nat × Except String RCell) : List PCell :=
  match cellTry b p.2 with
  | some v => acc.set p.1 v
  | none => acc

theorem alistLookup_map_entry {κ α β : Type} [DecidableEq κ]
    (l : List (κ × α)) (g : κ × α → β) (f : α → β)
    (hg : ∀ p, g p = f p.2) (k : κ) :
    alistLookup (l.map (fun p => (p.1, g p))) k =
      (alistLookup l k).map f := by
  induction l with
  | nil => rfl
  | cons p ps ih =>
    simp only [List.map_cons, alistLookup]
    by_cases h : p.1 = k
    · simp [h, hg p]
    · simp [h, ih]

theorem alistLookup_mem_keys {κ α : Type} [DecidableEq κ]
    {l : List (κ × α)} {k : κ} {v : α} (h : alistLookup l k = some v) :
    k ∈ l.map Prod.fst := by
  induction l with
  | nil => simp [alistLookup] at h
  | cons p ps ih =>
    simp only [alistLookup] at h
    by_cases hp : p.1 = k
    · simp [hp]
    · rw [if_neg hp] at h
      simp [ih h]

theorem keys_map_pair {κ α β : Type} (l : List (κ × α)) (g : κ × α → β) :
    (l.map (fun p => (p.1, g p))).map Prod.fst = l.map Prod.fst := by
  rw [List.map_map]
  apply List.map_congr_left
  intro p _
  rfl

theorem mem_keys_dictInsert {κ α : Type} [DecidableEq κ]
    (d : List (κ × α)) (k m : κ) (v : α) :
    m ∈ (dictInsert d k v).map Prod.fst ↔ m ∈ d.map Prod.fst ∨ m = k := by
  unfold dictInsert
  split
  case isTrue h =>
    have hkeys : (d.map (fun p => if p.1 = k then (p.1, v) else p)).map Prod.fst =
        d.map Prod.fst := by
      rw [List.map_map]
      apply List.map_congr_left
      intro p _
      by_cases hp : p.1 = k <;> simp [hp, Function.comp]
    rw [hkeys]
    constructor
    · exact Or.inl
    · rintro (hm | rfl)
      · exact hm
      · exact h
  case isFalse h => simp

theorem dictInsert_of_not_mem {κ α : Type} [DecidableEq κ]
    {d : List (κ × α)} {k : κ} (v : α) (h : k ∉ d.map Prod.fst) :
    dictInsert d k v = d ++ [(k, v)] := by
  unfold dictInsert
  rw [if_neg h]

theorem pyDict_foldl_eq_append {κ α : Type} [DecidableEq κ] :
    ∀ (l d : List (κ × α)), (∀ k ∈ l.map Prod.fst, k ∉ d.map Prod.fst) →
    (l.map Prod.fst).Nodup →
    l.foldl (fun d p => dictInsert d p.1 p.2) d = d ++ l := by
  intro l
  induction l with
  | nil => intro d _ _; simp
  | cons p l ih =>
    intro d hdisj hnd
    simp only [List.foldl_cons]
    have hp : p.1 ∉ d.map Prod.fst := hdisj p.1 (by simp)
    rw [dictInsert_of_not_mem p.2 hp]
    have hnd0 : (p.1 :: l.map Prod.fst).Nodup := by simpa using hnd
    have hnd' : (l.map Prod.fst).Nodup := (List.nodup_cons.mp hnd0).2
    have hhead : p.1 ∉ l.map Prod.fst := (List.nodup_cons.mp hnd0).1
    have hdisj2 : ∀ k ∈ l.map Prod.fst, k ∉ (d ++ [(p.1, p.2)]).map Prod.fst := by
      intro k hk hmem
      rw [List.map_append] at hmem
      rcases List.mem_append.mp hmem with hd | hsing
      · exact hdisj k (by simp [hk]) hd
      · simp only [List.map_cons, List.map_nil, List.mem_singleton] at hsing
        rw [hsing] at hk
        exact hhead hk
    rw [ih (d ++ [(p.1, p.2)]) hdisj2 hnd']
    simp

theorem pyDict_eq_self {κ α : Type} [DecidableEq κ]
    (l : List (κ × α)) (hnd : (l.map Prod.fst).Nodup) :
    pyDict l = l := by
  unfold pyDict
  rw [pyDict_foldl_eq_append l [] (by simp) hnd]
  simp

theorem mem_keys_pyDict {κ α : Type} [DecidableEq κ] :
    ∀ (l d : List (κ × α)) (n : κ),
    n ∈ (l.foldl (fun d p => dictInsert d p.1 p.2) d).map Prod.fst ↔
      n ∈ d.map Prod.fst ∨ n ∈ l.map Prod.fst := by
  intro l
  induction l with
  | nil => intro d n; simp
  | cons p l ih =>
    intro d n
    simp only [List.foldl_cons]
    rw [ih]
    rw [mem_keys_dictInsert]
    simp only [List.map_cons, List.mem_cons]
    tauto

theorem mem_dfKeys_dfToPandas (rdf : RDF) (n : String) :
    n ∈ dfKeys (dfToPandas rdf) ↔ n ∈ rdf.map Prod.fst := by
  unfold dfToPandas pyDict dfKeys
  rw [mem_keys_pyDict]
  rw [keys_map_pair]
  simp

theorem lookup_setcol_ne (df : PDF) (j : Nat) (name n : String) (v : PCell)
    (h : n ≠ name) :
    alistLookup (df.map (fun p => if p.1 = name then (p.1, p.2.set j v) else p)) n
      = alistLookup df n := by
  induction df with
  | nil => rfl
  | cons p ps ih =>
    simp only [List.map_cons, alistLookup]
    by_cases hp : p.1 = name
    · rw [if_pos hp]
      have hpn : ¬ p.1 = n := by
        rw [hp]
        exact fun hh => h hh.symm
      simp only [alistLookup, if_neg hpn]
      exact ih
    · rw [if_neg hp]
      by_cases hn : p.1 = n
      · rw [if_pos hn, if_pos hn]
      · rw [if_neg hn, if_neg hn]
        exact ih

theorem lookup_setcol_self (df : PDF) (j : Nat) (name : String) (v : PCell)
    (ps : List PCell) (h : alistLookup df name = some ps) :
    alistLookup (df.map (fun p => if p.1 = name then (p.1, p.2.set j v) else p)) name
      = some (ps.set j v) := by
  induction df with
  | nil => simp [alistLookup] at h
  | cons p l ih =>
    simp only [alistLookup] at h
    simp only [List.map_cons]
    by_cases hp : p.1 = name
    · rw [if_pos hp] at h
      cases h
      simp [alistLookup, hp]
    · rw [if_neg hp] at h
      simp only [if_neg hp, alistLookup]
      exact ih h

theorem lookup_append_single_ne (df : PDF) (name n : String) (cs : List PCell)
    (h : n ≠ name) :
    alistLookup (df ++ [(name, cs)]) n = alistLookup df n := by
  induction df with
  | nil =>
    simp only [List.nil_append, alistLookup]
    rw [if_neg (Ne.symm h)]
  | cons p ps ih =>
    simp only [List.cons_append, alistLookup]
    by_cases hn : p.1 = n
    · rw [if_pos hn, if_pos hn]
    · rw [if_neg hn, if_neg hn]
      exact ih

theorem pandasSetCell_lookup_ne (df : PDF) (j : Nat) (name n : String)
    (v : PCell) (h : n ≠ name) :
    alistLookup (pandasSetCell df j name v) n = alistLookup df n := by
  unfold pandasSetCell
  split
  · exact lookup_setcol_ne df j name n v h
  · exact lookup_append_single_ne df name n _ h

theorem pandasSetCell_lookup_self (df : PDF) (j : Nat) (name : String)
    (v : PCell) (ps : List PCell) (h : alistLookup df name = some ps) :
    alistLookup (pandasSetCell df j name v) name = some (ps.set j v) := by
  unfold pandasSetCell
  split
  case isTrue => exact lookup_setcol_self df j name v ps h
  case isFalse hmem => exact absurd (alistLookup_mem_keys h) hmem

theorem dfKeys_pandasSetCell_of_mem (df : PDF) (j : Nat) (name : String)
    (v : PCell) (h : name ∈ dfKeys df) :
    dfKeys (pandasSetCell df j name v) = dfKeys df := by
  unfold dfKeys at h
  unfold pandasSetCell dfKeys
  rw [if_pos h]
  rw [List.map_map]
  apply List.map_congr_left
  intro p _
  by_cases hp : p.1 = name <;> simp [hp, Function.comp]

theorem applyCellDF_some {b : NaBranch} {p : Nat × Except String RCell}
    {v : PCell} (name : String) (df : PDF) (hct : cellTry b p.2 = some v) :
    applyCellDF b name df p = pandasSetCell df p.1 name v := by
  unfold applyCellDF
  rw [hct]

theorem applyCellDF_none {b : NaBranch} {p : Nat × Except String RCell}
    (name : String) (df : PDF) (hct : cellTry b p.2 = none) :
    applyCellDF b name df p = df := by
  unfold applyCellDF
  rw [hct]

theorem applyCellList_some {b : NaBranch} {p : Nat × Except String RCell}
    {v : PCell} (acc : List PCell) (hct : cellTry b p.2 = some v) :
    applyCellList b acc p = acc.set p.1 v := by
  unfold applyCellList
  rw [hct]

theorem applyCellList_none {b : NaBranch} {p : Nat × Except String RCell}
    (acc : List PCell) (hct : cellTry b p.2 = none) :
    applyCellList b acc p = acc := by
  unfold applyCellList
  rw [hct]

theorem foldl_applyCellDF_lookup_ne (b : NaBranch) (name n : String)
    (h : n ≠ name) (L : List (Nat × Except String RCell)) :
    ∀ df : PDF,
    alistLookup (L.foldl (applyCellDF b name) df) n = alistLookup df n := by
  induction L with
  | nil => intro df; rfl
  | cons p L ih =>
    intro df
    simp only [List.foldl_cons]
    rw [ih]
    unfold applyCellDF
    cases hct : cellTry b p.2 with
    | none => rfl
    | some v => exact pandasSetCell_lookup_ne df p.1 name n v h

theorem foldl_applyCellDF_lookup (b : NaBranch) (name : String)
    (L : List (Nat × Except String RCell)) :
    ∀ (df : PDF) (ps : List PCell), alistLookup df name = some ps →
    alistLookup (L.foldl (applyCellDF b name) df) name =
      some (L.foldl (applyCellList b) ps) := by
  induction L with
  | nil => intro df ps h; simpa using h
  | cons p L ih =>
    intro df ps h
    simp only [List.foldl_cons]
    unfold applyCellDF applyCellList
    cases hct : cellTry b p.2 with
    | none => exact ih df ps h
    | some v => exact ih _ _ (pandasSetCell_lookup_self df p.1 name v ps h)

theorem dfKeys_foldl_applyCellDF (b : NaBranch) (name : String)
    (L : List (Nat × Except String RCell)) :
    ∀ df : PDF, name ∈ dfKeys df →
    dfKeys (L.foldl (applyCellDF b name) df) = dfKeys df := by
  induction L with
  | nil => intro df _; rfl
  | cons p L ih =>
    intro df hmem
    simp only [List.foldl_cons]
    cases hct : cellTry b p.2 with
    | none =>
      rw [applyCellDF_none name df hct]
      exact ih df hmem
    | some v =>
      rw [applyCellDF_some name df hct]
      rw [ih _ (by rw [dfKeys_pandasSetCell_of_mem df p.1 name v hmem]; exact hmem)]
      exact dfKeys_pandasSetCell_of_mem df p.1 name v hmem

theorem foldl_applyCellList_nil (b : NaBranch)
    (L : List (Nat × Except String RCell)) :
    L.foldl (applyCellList b) [] = [] := by
  induction L with
  | nil => rfl
  | cons p L ih =>
    simp only [List.foldl_cons]
    cases hct : cellTry b p.2 with
    | none => rw [applyCellList_none [] hct]; exact ih
    | some v => rw [applyCellList_some [] hct]; simpa using ih

theorem applyCellList_cons (b : NaBranch) (k : Nat) (c : Except String RCell)
    (q : PCell) (ps : List PCell) :
    applyCellList b (q :: ps) (k + 1, c) = q :: applyCellList b ps (k, c) := by
  unfold applyCellList
  cases cellTry b c <;> rfl

theorem foldl_applyCellList_shift (b : NaBranch)
    (cs : List (Except String RCell)) :
    ∀ (k : Nat) (q : PCell) (ps : List PCell),
    (cs.enumFrom (k + 1)).foldl (applyCellList b) (q :: ps) =
      q :: (cs.enumFrom k).foldl (applyCellList b) ps := by
  induction cs with
  | nil => intro k q ps; rfl
  | cons c cs ih =>
    intro k q ps
    rw [List.enumFrom_cons, List.enumFrom_cons]
    simp only [List.foldl_cons]
    rw [applyCellList_cons]
    exact ih (k + 1) q (applyCellList b ps (k, c))

theorem foldl_applyCellList_enum (b : NaBranch)
    (cs : List (Except String RCell)) :
    ∀ ps : List PCell,
    cs.enum.foldl (applyCellList b) ps = updCells b cs ps := by
  induction cs with
  | nil => intro ps; rfl
  | cons c cs ih =>
    intro ps
    rw [List.enum_eq_enumFrom, List.enumFrom_cons]
    simp only [List.foldl_cons]
    cases ps with
    | nil =>
      have hacc : applyCellList b [] (0, c) = [] := by
        unfold applyCellList
        cases cellTry b c <;> rfl
      rw [hacc, foldl_applyCellList_nil]
      rfl
    | cons q ps =>
      have hacc : applyCellList b (q :: ps) (0, c) =
          (match cellTry b c with
           | some v => v
           | none => q) :: ps := by
        unfold applyCellList
        cases cellTry b c <;> rfl
      rw [hacc, foldl_applyCellList_shift]
      rw [show List.enumFrom 0 cs = cs.enum from (List.enum_eq_enumFrom).symm]
      rw [ih ps]
      rfl

theorem updCells_length (b : NaBranch) :
    ∀ (cs : List (Except String RCell)) (ps : List PCell),
    (updCells b cs ps).length = ps.length := by
  intro cs
  induction cs with
  | nil => intro ps; rfl
  | cons c cs ih =>
    intro ps
    cases ps with
    | nil => rfl
    | cons q ps => simp [updCells, ih ps]

theorem updCells_get (b : NaBranch) :
    ∀ (cs : List (Except String RCell)) (ps : List PCell) (j : Nat)
      (c : Except String RCell), cs.get? j = some c →
    (updCells b cs ps).get? j =
      (ps.get? j).map (fun p =>
        match cellTry b c with
        | some v => v
        | none => p) := by
  intro cs
  induction cs with
  | nil => intro ps j c h; simp at h
  | cons c0 cs ih =>
    intro ps j c h
    cases ps with
    | nil => simp [updCells]
    | cons p0 ps =>
      cases j with
      | zero =>
        simp only [List.get?] at h
        cases h
        rfl
      | succ j =>
        simp only [List.get?] at h
        simp only [updCells, List.get?]
        exact ih ps j c h

theorem processColumn_lookup_ne (df : PDF) (name : String) (col : RColumn)
    (n : String) (h : n ≠ name) :
    alistLookup (processColumn df name col) n = alistLookup df n := by
  unfold processColumn
  cases branchOf col.rclass with
  | none => rfl
  | some b => exact foldl_applyCellDF_lookup_ne b name n h col.cells.enum df

theorem processColumn_lookup_self (df : PDF) (name : String) (col : RColumn)
    (ps : List PCell) (h : alistLookup df name = some ps) :
    alistLookup (processColumn df name col) name =
      some (match branchOf col.rclass with
            | none => ps
            | some b => updCells b col.cells ps) := by
  unfold processColumn
  cases hb : branchOf col.rclass with
  | none => simpa using h
  | some b =>
    rw [foldl_applyCellDF_lookup b name col.cells.enum df ps h]
    rw [foldl_applyCellList_enum b col.cells ps]

theorem dfKeys_processColumn (df : PDF) (name : String) (col : RColumn)
    (h : name ∈ dfKeys df) :
    dfKeys (processColumn df name col) = dfKeys df := by
  unfold processColumn
  cases branchOf col.rclass with
  | none => rfl
  | some b => exact dfKeys_foldl_applyCellDF b name col.cells.enum df h

theorem replace_lookup_not_mem (n : String) :
    ∀ (rdf : RDF) (pdf : PDF), n ∉ rdf.map Prod.fst →
    alistLookup (replace_r_na_with_pandas_na pdf rdf) n = alistLookup pdf n := by
  intro rdf
  induction rdf with
  | nil => intro pdf _; rfl
  | cons p rest ih =>
    intro pdf h
    have hn : n ≠ p.1 := by
      intro hh
      exact h (by simp [hh])
    have hrest : n ∉ rest.map Prod.fst := by
      intro hh
      exact h (by simp [hh])
    unfold replace_r_na_with_pandas_na
    simp only [List.foldl_cons]
    have := ih (processColumn pdf p.1 p.2) hrest
    unfold replace_r_na_with_pandas_na at this
    rw [this]
    exact processColumn_lookup_ne pdf p.1 p.2 n hn

theorem replace_lookup (n : String) (col : RColumn) (ps : List PCell) :
    ∀ (rdf : RDF) (pdf : PDF), (rdf.map Prod.fst).Nodup →
    alistLookup rdf n = some col → alistLookup pdf n = some ps →
    alistLookup (replace_r_na_with_pandas_na pdf rdf) n =
      some (match branchOf col.rclass with
            | none => ps
            | some b => updCells b col.cells ps) := by
  intro rdf
  induction rdf with
  | nil => intro pdf _ hc _; simp [alistLookup] at hc
  | cons p rest ih =>
    intro pdf hnd hc hp
    have hnd0 : (p.1 :: rest.map Prod.fst).Nodup := by simpa using hnd
    unfold replace_r_na_with_pandas_na
    simp only [List.foldl_cons]
    simp only [alistLookup] at hc
    by_cases hpn : p.1 = n
    · rw [if_pos hpn] at hc
      cases hc
      have hrest : n ∉ rest.map Prod.fst := by
        rw [← hpn]
        exact (List.nodup_cons.mp hnd0).1
      have hnm := replace_lookup_not_mem n rest (processColumn pdf p.1 p.2) hrest
      unfold replace_r_na_with_pandas_na at hnm
      rw [hnm]
      rw [hpn]
      exact processColumn_lookup_self pdf n p.2 ps (by rw [← hpn] at hp ⊢; exact hp)
    · rw [if_neg hpn] at hc
      have hnd' : (rest.map Prod.fst).Nodup := (List.nodup_cons.mp hnd0).2
      have hp' : alistLookup (processColumn pdf p.1 p.2) n = some ps := by
        rw [processColumn_lookup_ne pdf p.1 p.2 n (fun hh => hpn hh.symm)]
        exact hp
      have := ih (processColumn pdf p.1 p.2) hnd' hc hp'
      unfold replace_r_na_with_pandas_na at this
      exact this

theorem dfToPandas_eq (rdf : RDF) (hnd : (rdf.map Prod.fst).Nodup) :
    dfToPandas rdf = rdf.map (fun p => (p.1, p.2.cells.map PCell.fromR)) := by
  unfold dfToPandas
  apply pyDict_eq_self
  rw [keys_map_pair]
  exact hnd

theorem dfToPandas_lookup (rdf : RDF) (n : String)
    (hnd : (rdf.map Prod.fst).Nodup) :
    alistLookup (dfToPandas rdf) n =
      (alistLookup rdf n).map (fun col => col.cells.map PCell.fromR) := by
  rw [dfToPandas_eq rdf hnd]
  exact alistLookup_map_entry rdf _ (fun col => col.cells.map PCell.fromR)
    (fun p => rfl) n

theorem converted_cell (rdf : RDF) (n : String) (col : RColumn) (j : Nat)
    (c : Except String RCell)
    (hnd : (rdf.map Prod.fst).Nodup)
    (hc : alistLookup rdf n = some col)
    (hj : col.cells.get? j = some c) :
    dfGet (replace_r_na_with_pandas_na (dfToPandas rdf) rdf) n j =
      some (cellResult col.rclass c) := by
  have hp : alistLookup (dfToPandas rdf) n = some (col.cells.map PCell.fromR) := by
    rw [dfToPandas_lookup rdf n hnd, hc]
    rfl
  have h := replace_lookup n col (col.cells.map PCell.fromR) rdf (dfToPandas rdf)
    hnd hc hp
  unfold dfGet
  rw [h]
  unfold cellResult
  cases hb : branchOf col.rclass with
  | none =>
    simp only [hb]
    rw [List.get?_map, hj]
    rfl
  | some b =>
    simp only [hb]
    rw [updCells_get b col.cells (col.cells.map PCell.fromR) j c hj]
    rw [List.get?_map, hj]
    rfl

theorem cellResult_error (rc : String) (e : String) :
    cellResult rc (Except.error e) = PCell.fromR (Except.error e) := by
  unfold cellResult
  cases branchOf rc with
  | none => rfl
  | some b => rfl

theorem cellTry_charVal (b : NaBranch) (s : String) :
    cellTry b (Except.ok (RCell.charVal s)) = none := by
  cases b <;> rfl

theorem cellResult_charVal (rc : String) (s : String) :
    cellResult rc (Except.ok (RCell.charVal s)) =
      PCell.fromR (Except.ok (RCell.charVal s)) := by
  unfold cellResult
  cases hb : branchOf rc with
  | none => rfl
  | some b => simp only [cellTry_charVal]

theorem cellResult_declaredNA (rc : String) (na : RCell)
    (hna : declaredNA rc = some na) :
    cellResult rc (Except.ok na) = hostMarker rc := by
  unfold declaredNA at hna
  split_ifs at hna with h1 h2 h3 h4 h5
  · injection hna with hv
    subst hv
    subst h1
    decide
  · injection hna with hv
    subst hv
    subst h2
    decide
  · injection hna with hv
    subst hv
    subst h3
    decide
  · injection hna with hv
    subst hv
    subst h4
    decide
  · injection hna with hv
    subst hv
    subst h5
    decide

theorem branchOf_eq_none (rc : String)
    (h : ¬ (rc = "numeric" ∨ rc = "integer" ∨ rc = "character" ∨
        rc = "logical" ∨ rc = "factor")) :
    branchOf rc = none := by
  push_neg at h
  obtain ⟨h1, h2, h3, h4, h5⟩ := h
  unfold branchOf
  rw [if_neg (by push_neg; exact ⟨h1, h2⟩), if_neg h3, if_neg h4, if_neg h5]

theorem cellResult_not_na (rc : String) (v : RCell)
    (hwf : wfRCell rc v = true) (hnm : isDeclaredNA rc v = false) :
    cellResult rc (Except.ok v) = PCell.fromR (Except.ok v) := by
  by_cases h1 : rc = "numeric"
  · subst h1
    cases v <;> first | rfl | exact Bool.noConfusion hnm | exact Bool.noConfusion hwf
  by_cases h2 : rc = "integer"
  · subst h2
    cases v <;> first | rfl | exact Bool.noConfusion hnm | exact Bool.noConfusion hwf
  by_cases h3 : rc = "character"
  · subst h3
    cases v <;> first | rfl | exact Bool.noConfusion hnm | exact Bool.noConfusion hwf
  by_cases h4 : rc = "logical"
  · subst h4
    cases v <;> first | rfl | exact Bool.noConfusion hnm | exact Bool.noConfusion hwf
  by_cases h5 : rc = "factor"
  · subst h5
    cases v with
    | intVal n =>
      have hn : 1 ≤ n := by simpa [wfRCell] using hwf
      have hle : cellTry NaBranch.fctr (Except.ok (RCell.intVal n)) = none := by
        simp only [cellTry, naCheck, pyLeZero]
        rw [show decide (n ≤ 0) = false from by rw [decide_eq_false_iff_not]; omega]
      simp only [cellResult,
        show branchOf "factor" = some NaBranch.fctr from by decide, hle]
    | naInt => exact Bool.noConfusion hnm
    | naReal => exact Bool.noConfusion hwf
    | naLog => exact Bool.noConfusion hwf
    | naChar => exact Bool.noConfusion hwf
    | naComplex => exact Bool.noConfusion hwf
    | realVal q => exact Bool.noConfusion hwf
    | logVal bb => exact Bool.noConfusion hwf
    | charVal s => exact Bool.noConfusion hwf
    | complexVal re im => exact Bool.noConfusion hwf
  · unfold cellResult
    rw [branchOf_eq_none rc (by push_neg; exact ⟨h1, h2, h3, h4, h5⟩)]

theorem rFilterOn_ok (rdf : RDF) (cn : String)
    (pred : Except String RCell → Bool) (filtered : RDF)
    (h : rFilterOn rdf cn pred = Except.ok filtered) :
    ∃ col, alistLookup rdf cn = some col ∧
      filtered = rdf.map (fun p =>
        (p.1, RColumn.mk p.2.rclass ((keepRows col pred).filterMap p.2.cells.get?))) := by
  unfold rFilterOn at h
  cases hl : alistLookup rdf cn with
  | none =>
    rw [hl] at h
    exact Except.noConfusion h
  | some col =>
    rw [hl] at h
    injection h with h
    exact ⟨col, rfl, h.symm⟩

theorem mem_filterKept (col : RColumn) (pred : Except String RCell → Bool)
    (c : Except String RCell)
    (h : c ∈ (keepRows col pred).filterMap col.cells.get?) :
    pred c = true := by
  rcases List.mem_filterMap.mp h with ⟨i, hi, hget⟩
  have hfil := (List.mem_filter.mp hi).2
  rw [hget] at hfil
  exact hfil

theorem titlePred_true (kw : String) (c : Except String RCell)
    (h : titlePred kw c = true) :
    ∃ s, c = Except.ok (RCell.charVal s) ∧ strDetect s kw = true := by
  cases c with
  | error e => exact Bool.noConfusion h
  | ok v =>
    cases v with
    | charVal s => exact ⟨s, rfl, h⟩
    | naInt => exact Bool.noConfusion h
    | naReal => exact Bool.noConfusion h
    | naLog => exact Bool.noConfusion h
    | naChar => exact Bool.noConfusion h
    | naComplex => exact Bool.noConfusion h
    | intVal n => exact Bool.noConfusion h
    | realVal q => exact Bool.noConfusion h
    | logVal bb => exact Bool.noConfusion h
    | complexVal re im => exact Bool.noConfusion h

theorem completedPred_true (c : Except String RCell)
    (h : completedPred c = true) :
    c = Except.ok (RCell.charVal ("completed")) := by
  cases c with
  | error e => exact Bool.noConfusion h
  | ok v =>
    cases v with
    | charVal s =>
      have hs : s = "completed" := of_decide_eq_true h
      rw [hs]
    | naInt => exact Bool.noConfusion h
    | naReal => exact Bool.noConfusion h
    | naLog => exact Bool.noConfusion h
    | naChar => exact Bool.noConfusion h
    | naComplex => exact Bool.noConfusion h
    | intVal n => exact Bool.noConfusion h
    | realVal q => exact Bool.noConfusion h
    | logVal bb => exact Bool.noConfusion h
    | complexVal re im => exact Bool.noConfusion h

theorem dfKeys_replace : ∀ (rdf : RDF) (pdf : PDF),
    (∀ m ∈ rdf.map Prod.fst, m ∈ dfKeys pdf) →
    dfKeys (replace_r_na_with_pandas_na pdf rdf) = dfKeys pdf := by
  intro rdf
  induction rdf with
  | nil => intro pdf _; rfl
  | cons p rest ih =>
    intro pdf h
    unfold replace_r_na_with_pandas_na
    simp only [List.foldl_cons]
    have hkeys := dfKeys_processColumn pdf p.1 p.2 (h p.1 (by simp))
    have hrec := ih (processColumn pdf p.1 p.2)
      (fun m hm => by rw [hkeys]; exact h m (by simp [hm]))
    unfold replace_r_na_with_pandas_na at hrec
    rw [hrec, hkeys]

theorem alistLookup_map_self {κ β : Type} [DecidableEq κ]
    (ids : List κ) (g : κ → β) (i : κ) (h : i ∈ ids) :
    alistLookup (ids.map (fun x => (x, g x))) i = some (g i) := by
  induction ids with
  | nil => simp at h
  | cons a ids ih =>
    simp only [List.map_cons, alistLookup]
    by_cases ha : a = i
    · subst ha; simp
    · have h2 : i ∈ ids := by
        rcases List.mem_cons.mp h with h0 | h0
        · exact absurd h0.symm ha
        · exact h0
      simp [ha, ih h2]

theorem download_multiple_eq_map (dl : Nat → Except String PDF)
    (ids : List Nat) (hnd : ids.Nodup) :
    download_multiple_surveys dl ids =
      ids.map (fun i => (i, downloadOutcome dl i)) := by
  have hpy : download_multiple_surveys dl ids =
      pyDict (ids.map (fun i => (i, downloadOutcome dl i))) := by
    unfold download_multiple_surveys pyDict
    rw [List.foldl_map]
  rw [hpy]
  apply pyDict_eq_self
  have : (ids.map (fun i => (i, downloadOutcome dl i))).map Prod.fst = ids := by
    simp only [List.map_map]
    have h2 : (Prod.fst ∘ fun i : Nat => (i, downloadOutcome dl i)) = id := by
      funext i
      rfl
    rw [h2, List.map_id]
  rw [this]
  exact hnd

theorem lookup_update_const_self {κ α : Type} [DecidableEq κ]
    (d : List (κ × α)) (k : κ) (v : α) (h : k ∈ d.map Prod.fst) :
    alistLookup (d.map (fun p => if p.1 = k then (p.1, v) else p)) k = some v := by
  induction d with
  | nil => simp at h
  | cons p ps ih =>
    simp only [List.map_cons, alistLookup]
    by_cases hp : p.1 = k
    · simp [hp]
    · have h2 : k ∈ ps.map Prod.fst := by
        have h3 : k ∈ p.1 :: ps.map Prod.fst := by
          simpa only [List.map_cons] using h
        rcases List.mem_cons.mp h3 with h0 | h0
        · exact absurd h0.symm hp
        · exact h0
      simp [hp, ih h2]

theorem alistLookup_append_right_self {κ α : Type} [DecidableEq κ]
    (d : List (κ × α)) (k : κ) (v : α) (h : k ∉ d.map Prod.fst) :
    alistLookup (d ++ [(k, v)]) k = some v := by
  induction d with
  | nil => simp [alistLookup]
  | cons p ps ih =>
    simp only [List.cons_append, alistLookup]
    have hp : ¬ p.1 = k := fun hh => h (by simp [hh])
    rw [if_neg hp]
    exact ih (fun hh => h (by simp [hh]))

theorem alistLookup_dictInsert_self {κ α : Type} [DecidableEq κ]
    (d : List (κ × α)) (k : κ) (v : α) :
    alistLookup (dictInsert d k v) k = some v := by
  unfold dictInsert
  split
  case isTrue h => exact lookup_update_const_self d k v h
  case isFalse h => exact alistLookup_append_right_self d k v h

/-- C1: for every column of the R result table whose declared type is numeric,
integer, character, logical or factor, every cell the R runtime reports as
missing (the NA of that declared type) is set by _replace_r_na_with_pandas_na
to the host missing marker: np.nan for numeric and integer columns, pd.NA for
character, logical and factor columns.  Column names are taken distinct so
that the cell correspondence between the R and pandas frames is well
defined. -/
theorem C1_declared_na_becomes_host_marker (rdf : RDF) (n : String)
    (col : RColumn) (j : Nat) (na : RCell)
    (hnd : (rdf.map Prod.fst).Nodup)
    (hc : alistLookup rdf n = some col)
    (hna : declaredNA col.rclass = some na)
    (hj : col.cells.get? j = some (Except.ok na)) :
    dfGet (replace_r_na_with_pandas_na (dfToPandas rdf) rdf) n j =
      some (hostMarker col.rclass) := by
  rw [converted_cell rdf n col j (Except.ok na) hnd hc hj]
  rw [cellResult_declaredNA col.rclass na hna]

/-- Witness for C1: a one-column numeric frame whose only cell is NA_Real is
converted to np.nan. -/
theorem C1_witness :
    dfGet
      (replace_r_na_with_pandas_na
        (dfToPandas [(("age" : String), RColumn.mk ("numeric") [Except.ok RCell.naReal])])
        [(("age" : String), RColumn.mk ("numeric") [Except.ok RCell.naReal])])
      ("age") 0 = some (hostMarker ("numeric")) :=
  C1_declared_na_becomes_host_marker
    [(("age" : String), RColumn.mk ("numeric") [Except.ok RCell.naReal])]
    ("age") (RColumn.mk ("numeric") [Except.ok RCell.naReal]) 0 RCell.naReal
    (by decide) (by decide) (by decide) (by decide)

/-- C2: every cell of the R result table that is not a missing value is left
with its carried-over value (and hence its type) by
_replace_r_na_with_pandas_na: the cell of the converted frame before NA
reconciliation and the cell after it are both the carried-over value.
wfRCell captures that the value is one the R runtime can report in a column
of that declared class. -/
theorem C2_non_missing_cells_unchanged (rdf : RDF) (n : String)
    (col : RColumn) (j : Nat) (v : RCell)
    (hnd : (rdf.map Prod.fst).Nodup)
    (hc : alistLookup rdf n = some col)
    (hj : col.cells.get? j = some (Except.ok v))
    (hwf : wfRCell col.rclass v = true)
    (hnm : isDeclaredNA col.rclass v = false) :
    dfGet (dfToPandas rdf) n j = some (PCell.fromR (Except.ok v)) ∧
    dfGet (replace_r_na_with_pandas_na (dfToPandas rdf) rdf) n j =
      some (PCell.fromR (Except.ok v)) := by
  constructor
  · unfold dfGet
    rw [dfToPandas_lookup rdf n hnd, hc]
    simp only [Option.map_some']
    rw [List.get?_map, hj]
    rfl
  · rw [converted_cell rdf n col j (Except.ok v) hnd hc hj]
    rw [cellResult_not_na col.rclass v hwf hnm]

/-- Witness for C2: a non-missing numeric cell is carried over unchanged. -/
theorem C2_witness :
    dfGet (dfToPandas [(("score" : String),
        RColumn.mk ("numeric") [Except.ok (RCell.realVal 5)])]) ("score") 0 =
      some (PCell.fromR (Except.ok (RCell.realVal 5))) ∧
    dfGet
      (replace_r_na_with_pandas_na
        (dfToPandas [(("score" : String),
          RColumn.mk ("numeric") [Except.ok (RCell.realVal 5)])])
        [(("score" : String), RColumn.mk ("numeric") [Except.ok (RCell.realVal 5)])])
      ("score") 0 = some (PCell.fromR (Except.ok (RCell.realVal 5))) :=
  C2_non_missing_cells_unchanged
    [(("score" : String), RColumn.mk ("numeric") [Except.ok (RCell.realVal 5)])]
    ("score") (RColumn.mk ("numeric") [Except.ok (RCell.realVal 5)]) 0
    (RCell.realVal 5) (by decide) (by decide) (by decide) (by decide) (by decide)

/-- C7: a cell whose access raises during the NA check is caught: the cell is
left unconverted, the conversion returns normally, and every other cell of
the column is still processed exactly as the per-cell rule prescribes.
Stated for a column the if/elif chain handles through cellResult, which is
the per-cell conversion rule; the conversion function itself is total, so no
exception propagates. -/
theorem C7_cell_error_caught_and_skipped (rdf : RDF) (n : String)
    (col : RColumn) (k : Nat) (e : String)
    (hnd : (rdf.map Prod.fst).Nodup)
    (hc : alistLookup rdf n = some col)
    (hk : col.cells.get? k = some (Except.error e)) :
    dfGet (replace_r_na_with_pandas_na (dfToPandas rdf) rdf) n k =
      some (PCell.fromR (Except.error e)) ∧
    ∀ (j : Nat) (c : Except String RCell), col.cells.get? j = some c →
      dfGet (replace_r_na_with_pandas_na (dfToPandas rdf) rdf) n j =
        some (cellResult col.rclass c) := by
  constructor
  · rw [converted_cell rdf n col k (Except.error e) hnd hc hk]
    rw [cellResult_error]
  · intro j c hj
    exact converted_cell rdf n col j c hnd hc hj

/-- Witness for C7: a character column whose first cell raises on access and
whose second cell is NA_Character; the first is left unconverted, the second
is still converted (cellResult of NA_Character in a character column is
pd.NA). -/
theorem C7_witness :
    dfGet
      (replace_r_na_with_pandas_na
        (dfToPandas [(("q" : String), RColumn.mk ("character")
          [Except.error ("boom"), Except.ok RCell.naChar])])
        [(("q" : String), RColumn.mk ("character")
          [Except.error ("boom"), Except.ok RCell.naChar])])
      ("q") 0 = some (PCell.fromR (Except.error ("boom"))) ∧
    dfGet
      (replace_r_na_with_pandas_na
        (dfToPandas [(("q" : String), RColumn.mk ("character")
          [Except.error ("boom"), Except.ok RCell.naChar])])
        [(("q" : String), RColumn.mk ("character")
          [Except.error ("boom"), Except.ok RCell.naChar])])
      ("q") 1 = some (cellResult ("character") (Except.ok RCell.naChar)) :=
  ⟨(C7_cell_error_caught_and_skipped
      [(("q" : String), RColumn.mk ("character")
        [Except.error ("boom"), Except.ok RCell.naChar])]
      ("q") (RColumn.mk ("character")
        [Except.error ("boom"), Except.ok RCell.naChar]) 0 ("boom")
      (by decide) (by decide) (by decide)).1,
   (C7_cell_error_caught_and_skipped
      [(("q" : String), RColumn.mk ("character")
        [Except.error ("boom"), Except.ok RCell.naChar])]
      ("q") (RColumn.mk ("character")
        [Except.error ("boom"), Except.ok RCell.naChar]) 0 ("boom")
      (by decide) (by decide) (by decide)).2 1 (Except.ok RCell.naChar) (by decide)⟩

/-- C10: a column whose declared class is outside the five handled classes
(for example complex) is left entirely unchanged by
_replace_r_na_with_pandas_na: the whole converted column still holds exactly
the carried-over cells, missing or not.  At the same time the client records
an NA sentinel for complex in na_types. -/
theorem C10_unhandled_class_column_untouched (rdf : RDF) (n : String)
    (col : RColumn)
    (hnd : (rdf.map Prod.fst).Nodup)
    (hc : alistLookup rdf n = some col)
    (hcl : col.rclass ∉
      (["numeric", "integer", "character", "logical", "factor"] : List String)) :
    alistLookup (replace_r_na_with_pandas_na (dfToPandas rdf) rdf) n =
      some (col.cells.map PCell.fromR) ∧
    alistLookup naTypesInit ("complex") = some RCell.naComplex := by
  constructor
  · have hb : branchOf col.rclass = none := by
      apply branchOf_eq_none
      simpa using hcl
    have hp : alistLookup (dfToPandas rdf) n = some (col.cells.map PCell.fromR) := by
      rw [dfToPandas_lookup rdf n hnd, hc]
      rfl
    have h := replace_lookup n col (col.cells.map PCell.fromR) rdf
      (dfToPandas rdf) hnd hc hp
    rw [h]
    simp only [hb]
  · decide

/-- Witness for C10: a complex column with an NA_Complex cell and an ordinary
complex cell is untouched. -/
theorem C10_witness :
    alistLookup
      (replace_r_na_with_pandas_na
        (dfToPandas [(("z" : String), RColumn.mk ("complex")
          [Except.ok RCell.naComplex, Except.ok (RCell.complexVal 1 2)])])
        [(("z" : String), RColumn.mk ("complex")
          [Except.ok RCell.naComplex, Except.ok (RCell.complexVal 1 2)])])
      ("z") =
      some (List.map PCell.fromR
        [Except.ok RCell.naComplex, Except.ok (RCell.complexVal 1 2)]) ∧
    alistLookup naTypesInit ("complex") = some RCell.naComplex :=
  C10_unhandled_class_column_untouched
    [(("z" : String), RColumn.mk ("complex")
      [Except.ok RCell.naComplex, Except.ok (RCell.complexVal 1 2)])]
    ("z") (RColumn.mk ("complex")
      [Except.ok RCell.naComplex, Except.ok (RCell.complexVal 1 2)])
    (by decide) (by decide) (by decide)

/-- C3: the pandas frame produced by get_available_surveys, filter_surveys and
download_survey_data carries exactly the column names of the R result table it
converts: a name is a column of the converted frame exactly when it is a name
of the source table.  (The dict construction collapses duplicate source names
into one column, so the correspondence is stated as a two-way membership of
names.) -/
theorem C3_column_names_preserved :
    (∀ (r_surveys : RDF) (n : String),
      n ∈ dfKeys (get_available_surveys r_surveys) ↔ n ∈ r_surveys.map Prod.fst) ∧
    (∀ (surveys : RDF) (keyword : String) (pdf : PDF),
      filter_surveys surveys keyword = Except.ok pdf →
      ∀ n, n ∈ dfKeys pdf ↔ n ∈ surveys.map Prod.fst) ∧
    (∀ (parsed : RDF) (pdf : PDF),
      download_survey_data parsed = Except.ok pdf →
      ∀ n, n ∈ dfKeys pdf ↔ n ∈ parsed.map Prod.fst) := by
  refine ⟨?_, ?_, ?_⟩
  · intro rdf n
    exact mem_dfKeys_dfToPandas rdf n
  · intro surveys keyword pdf h n
    unfold filter_surveys at h
    cases hf : rFilterOn surveys ("title") (titlePred keyword) with
    | error e =>
      rw [hf] at h
      exact Except.noConfusion h
    | ok filtered =>
      rw [hf] at h
      injection h with h
      subst h
      rw [mem_dfKeys_dfToPandas]
      obtain ⟨col, hcol, hfil⟩ := rFilterOn_ok surveys _ _ filtered hf
      rw [hfil, keys_map_pair]
  · intro parsed pdf h n
    unfold download_survey_data at h
    cases hf : rFilterOn parsed ("response_status") completedPred with
    | error e =>
      rw [hf] at h
      exact Except.noConfusion h
    | ok filtered =>
      rw [hf] at h
      injection h with h
      subst h
      obtain ⟨col, hcol, hfil⟩ := rFilterOn_ok parsed _ _ filtered hf
      have hmem : ∀ m ∈ filtered.map Prod.fst, m ∈ dfKeys (dfToPandas filtered) :=
        fun m hm => (mem_dfKeys_dfToPandas filtered m).mpr hm
      rw [dfKeys_replace filtered (dfToPandas filtered) hmem]
      rw [mem_dfKeys_dfToPandas]
      rw [hfil, keys_map_pair]

/-- Witness for C3: the three conversions on small concrete frames keep the
source column names. -/
theorem C3_witness :
    (("a" : String) ∈ dfKeys (get_available_surveys
        [(("a" : String), RColumn.mk ("character") [])]) ↔
      ("a" : String) ∈
        (([(("a" : String), RColumn.mk ("character") [])] : RDF).map Prod.fst)) ∧
    (("title" : String) ∈
        dfKeys [(("title" : String), [PCell.fromR (Except.ok (RCell.charVal ("ax")))])] ↔
      ("title" : String) ∈
        (([(("title" : String), RColumn.mk ("character")
          [Except.ok (RCell.charVal ("ax"))])] : RDF).map Prod.fst)) ∧
    (("response_status" : String) ∈
        dfKeys [(("response_status" : String),
          [PCell.fromR (Except.ok (RCell.charVal ("completed")))])] ↔
      ("response_status" : String) ∈
        (([(("response_status" : String), RColumn.mk ("character")
          [Except.ok (RCell.charVal ("completed"))])] : RDF).map Prod.fst)) :=
  ⟨C3_column_names_preserved.1 [(("a" : String), RColumn.mk ("character") [])] ("a"),
   C3_column_names_preserved.2.1
     [(("title" : String), RColumn.mk ("character") [Except.ok (RCell.charVal ("ax"))])]
     ("x") [(("title" : String), [PCell.fromR (Except.ok (RCell.charVal ("ax")))])]
     (by decide) ("title"),
   C3_column_names_preserved.2.2
     [(("response_status" : String), RColumn.mk ("character")
       [Except.ok (RCell.charVal ("completed"))])]
     [(("response_status" : String),
       [PCell.fromR (Except.ok (RCell.charVal ("completed")))])]
     (by decide) ("response_status")⟩

/-- C5: every row of the frame returned by filter_surveys has a title cell
whose string contains the keyword, with the containment test the
case-sensitive one performed by the underlying str_detect call (strDetect).
Column names of the surveys table are taken distinct. -/
theorem C5_filtered_titles_contain_keyword (surveys : RDF) (keyword : String)
    (pdf : PDF)
    (hnd : (surveys.map Prod.fst).Nodup)
    (h : filter_surveys surveys keyword = Except.ok pdf)
    (j : Nat) (c : PCell)
    (hg : dfGet pdf ("title") j = some c) :
    ∃ s, c = PCell.fromR (Except.ok (RCell.charVal s)) ∧
      strDetect s keyword = true := by
  unfold filter_surveys at h
  cases hf : rFilterOn surveys ("title") (titlePred keyword) with
  | error e =>
    rw [hf] at h
    exact Except.noConfusion h
  | ok filtered =>
    rw [hf] at h
    injection h with h
    subst h
    obtain ⟨col, hcol, hfil⟩ := rFilterOn_ok surveys _ _ filtered hf
    have hndf : (filtered.map Prod.fst).Nodup := by
      rw [hfil, keys_map_pair]
      exact hnd
    have hlf : alistLookup filtered ("title") =
        some (RColumn.mk col.rclass
          ((keepRows col (titlePred keyword)).filterMap col.cells.get?)) := by
      rw [hfil]
      rw [alistLookup_map_entry surveys _
        (fun c2 => RColumn.mk c2.rclass
          ((keepRows col (titlePred keyword)).filterMap c2.cells.get?))
        (fun p => rfl) ("title")]
      rw [hcol]
      rfl
    unfold dfGet at hg
    rw [dfToPandas_lookup filtered ("title") hndf, hlf] at hg
    simp only [Option.map_some'] at hg
    rw [List.get?_map] at hg
    cases hs : ((keepRows col (titlePred keyword)).filterMap col.cells.get?).get? j with
    | none =>
      rw [hs] at hg
      exact Option.noConfusion hg
    | some cc =>
      rw [hs] at hg
      injection hg with hg
      have hcc := titlePred_true keyword cc
        (mem_filterKept col (titlePred keyword) cc (List.get?_mem hs))
      rcases hcc with ⟨s, hceq, hsd⟩
      refine ⟨s, ?_, hsd⟩
      rw [← hg, hceq]

/-- Witness for C5: filtering a one-row surveys table by a keyword its title
contains keeps the row, and the kept title contains the keyword. -/
theorem C5_witness :
    ∃ s, PCell.fromR (Except.ok (RCell.charVal ("ax"))) =
        PCell.fromR (Except.ok (RCell.charVal s)) ∧
      strDetect s ("x") = true :=
  C5_filtered_titles_contain_keyword
    [(("title" : String), RColumn.mk ("character") [Except.ok (RCell.charVal ("ax"))])]
    ("x") [(("title" : String), [PCell.fromR (Except.ok (RCell.charVal ("ax")))])]
    (by decide) (by decide) 0 (PCell.fromR (Except.ok (RCell.charVal ("ax"))))
    (by decide)

/-- C9: every row of the frame returned by download_survey_data has
response_status equal to "completed": the R code filters the parsed table to
completed responses before conversion, and the conversion leaves string cells
unchanged.  Column names of the parsed table are taken distinct. -/
theorem C9_only_completed_responses (parsed : RDF) (pdf : PDF)
    (hnd : (parsed.map Prod.fst).Nodup)
    (h : download_survey_data parsed = Except.ok pdf)
    (j : Nat) (c : PCell)
    (hg : dfGet pdf ("response_status") j = some c) :
    c = PCell.fromR (Except.ok (RCell.charVal ("completed"))) := by
  unfold download_survey_data at h
  cases hf : rFilterOn parsed ("response_status") completedPred with
  | error e =>
    rw [hf] at h
    exact Except.noConfusion h
  | ok filtered =>
    rw [hf] at h
    injection h with h
    subst h
    obtain ⟨col, hcol, hfil⟩ := rFilterOn_ok parsed _ _ filtered hf
    have hndf : (filtered.map Prod.fst).Nodup := by
      rw [hfil, keys_map_pair]
      exact hnd
    have hlf : alistLookup filtered ("response_status") =
        some (RColumn.mk col.rclass
          ((keepRows col completedPred).filterMap col.cells.get?)) := by
      rw [hfil]
      rw [alistLookup_map_entry parsed _
        (fun c2 => RColumn.mk c2.rclass
          ((keepRows col completedPred).filterMap c2.cells.get?))
        (fun p => rfl) ("response_status")]
      rw [hcol]
      rfl
    have hrep := replace_lookup ("response_status")
      (RColumn.mk col.rclass ((keepRows col completedPred).filterMap col.cells.get?))
      (((keepRows col completedPred).filterMap col.cells.get?).map PCell.fromR)
      filtered (dfToPandas filtered) hndf hlf
      (by rw [dfToPandas_lookup filtered ("response_status") hndf, hlf]; rfl)
    unfold dfGet at hg
    rw [hrep] at hg
    cases hb : branchOf col.rclass with
    | none =>
      simp only [hb] at hg
      rw [List.get?_map] at hg
      cases hs : ((keepRows col completedPred).filterMap col.cells.get?).get? j with
      | none =>
        rw [hs] at hg
        exact Option.noConfusion hg
      | some cc =>
        rw [hs] at hg
        injection hg with hg
        have hcc := completedPred_true cc
          (mem_filterKept col completedPred cc (List.get?_mem hs))
        rw [← hg, hcc]
    | some b =>
      simp only [hb] at hg
      cases hs : ((keepRows col completedPred).filterMap col.cells.get?).get? j with
      | none =>
        have hlen : ((keepRows col completedPred).filterMap col.cells.get?).length ≤ j :=
          List.get?_eq_none.mp hs
        have hnone : (updCells b
            ((keepRows col completedPred).filterMap col.cells.get?)
            (((keepRows col completedPred).filterMap col.cells.get?).map PCell.fromR)).get? j
            = none := by
          apply List.get?_len_le
          rw [updCells_length]
          simpa using hlen
        rw [hnone] at hg
        exact Option.noConfusion hg
      | some cc =>
        rw [updCells_get b _ _ j cc hs] at hg
        rw [List.get?_map, hs] at hg
        have hcc := completedPred_true cc
          (mem_filterKept col completedPred cc (List.get?_mem hs))
        subst hcc
        rw [cellTry_charVal] at hg
        simp only [Option.map_some'] at hg
        injection hg with hg
        exact hg.symm

/-- Witness for C9: downloading a one-row parsed table whose only response is
completed yields a frame whose response_status cell is the completed string. -/
theorem C9_witness :
    PCell.fromR (Except.ok (RCell.charVal ("completed"))) =
      PCell.fromR (Except.ok (RCell.charVal ("completed"))) :=
  C9_only_completed_responses
    [(("response_status" : String), RColumn.mk ("character")
      [Except.ok (RCell.charVal ("completed"))])]
    [(("response_status" : String),
      [PCell.fromR (Except.ok (RCell.charVal ("completed")))])]
    (by decide) (by decide) 0
    (PCell.fromR (Except.ok (RCell.charVal ("completed")))) (by decide)

/-- C4 counterexample: on the two-element id list [1, 1] every download raises,
yet the returned mapping has one entry, not two: a python dict keyed by the
ids cannot have size N when the list repeats an id. -/
theorem C4_counterexample :
    ¬ ((download_multiple_surveys
        (fun _ => Except.error ("boom")) [1, 1]).length = 2) := by
  decide

/-- C4 as amended: for every list of N distinct survey ids,
download_multiple_surveys returns a mapping of size N whose keys are exactly
the given ids; every id is mapped to its download outcome, and an id whose
download raises is mapped to the absent value None while the remaining ids
are still processed (no exception propagates, the function is total). -/
theorem C4_bulk_download_mapping (dl : Nat → Except String PDF)
    (survey_ids : List Nat) (hnd : survey_ids.Nodup) :
    (download_multiple_surveys dl survey_ids).map Prod.fst = survey_ids ∧
    (∀ i ∈ survey_ids,
      alistLookup (download_multiple_surveys dl survey_ids) i =
        some (downloadOutcome dl i)) ∧
    (∀ i ∈ survey_ids, ∀ e, dl i = Except.error e →
      alistLookup (download_multiple_surveys dl survey_ids) i = some none) := by
  have hm := download_multiple_eq_map dl survey_ids hnd
  refine ⟨?_, ?_, ?_⟩
  · rw [hm, List.map_map]
    have h2 : (Prod.fst ∘ fun i : Nat => (i, downloadOutcome dl i)) = id := by
      funext i
      rfl
    rw [h2, List.map_id]
  · intro i hi
    rw [hm]
    exact alistLookup_map_self survey_ids _ i hi
  · intro i hi e he
    rw [hm, alistLookup_map_self survey_ids _ i hi]
    unfold downloadOutcome
    rw [he]

/-- Witness for C4 as amended: ids [1, 2], the download of id 1 raises and the
download of id 2 succeeds; the mapping keys are [1, 2] and id 1 maps to
None. -/
theorem C4_witness :
    ((download_multiple_surveys
        (fun i => if i = 1 then Except.error ("x") else Except.ok ([] : PDF))
        [1, 2]).map Prod.fst = [1, 2]) ∧
    alistLookup (download_multiple_surveys
        (fun i => if i = 1 then Except.error ("x") else Except.ok ([] : PDF))
        [1, 2]) 1 = some none :=
  ⟨(C4_bulk_download_mapping
      (fun i => if i = 1 then Except.error ("x") else Except.ok ([] : PDF))
      [1, 2] (by decide)).1,
   (C4_bulk_download_mapping
      (fun i => if i = 1 then Except.error ("x") else Except.ok ([] : PDF))
      [1, 2] (by decide)).2.2 1 (by decide) ("x") (by decide)⟩

/-- C6: import_package on a name already in the manager cache returns the
cached handle with the state unchanged and performs no importr and no
installation (the observable action list is empty); consequently, after any
successful import_package call, a second call with the same name returns the
identical handle and does nothing. -/
theorem C6_cached_import_returns_handle (env : REnv) (st : RPMState)
    (package_name : String) :
    (∀ pkg, alistLookup st.packages package_name = some pkg →
      import_package env st package_name = Except.ok (pkg, st, [])) ∧
    (∀ pkg st2 acts,
      import_package env st package_name = Except.ok (pkg, st2, acts) →
      import_package env st2 package_name = Except.ok (pkg, st2, [])) := by
  constructor
  · intro pkg h
    unfold import_package
    rw [h]
  · intro pkg st2 acts h
    unfold import_package at h
    cases hl : alistLookup st.packages package_name with
    | some p =>
      rw [hl] at h
      injection h with h
      injection h with h1 h
      injection h with h2 h3
      subst h1
      subst h2
      unfold import_package
      rw [hl]
    | none =>
      rw [hl] at h
      cases hpre : env.importrPre package_name with
      | some p =>
        rw [hpre] at h
        injection h with h
        injection h with h1 h
        injection h with h2 h3
        subst h1
        subst h2
        unfold import_package
        simp only [alistLookup_dictInsert_self]
      | none =>
        rw [hpre] at h
        cases hpost : env.importrPost package_name with
        | some p =>
          rw [hpost] at h
          injection h with h
          injection h with h1 h
          injection h with h2 h3
          subst h1
          subst h2
          unfold import_package
          simp only [alistLookup_dictInsert_self]
        | none =>
          rw [hpost] at h
          exact Except.noConfusion h

/-- Witness for C6: a cached package name returns the cached handle with no
actions, and a freshly imported name returns the same handle again on the
second call. -/
theorem C6_witness :
    import_package (REnv.mk (fun _ => some 3) (fun _ => some 4))
      (RPMState.mk [("utils", 1), ("base", 2), ("tidyverse", 7)]) ("tidyverse") =
      Except.ok (7, RPMState.mk [("utils", 1), ("base", 2), ("tidyverse", 7)], []) ∧
    import_package (REnv.mk (fun _ => some 3) (fun _ => some 4))
      (RPMState.mk [("utils", 1), ("base", 2), ("tidyverse", 7), ("dplyr", 3)])
      ("dplyr") =
      Except.ok (3,
        RPMState.mk [("utils", 1), ("base", 2), ("tidyverse", 7), ("dplyr", 3)], []) :=
  ⟨(C6_cached_import_returns_handle (REnv.mk (fun _ => some 3) (fun _ => some 4))
      (RPMState.mk [("utils", 1), ("base", 2), ("tidyverse", 7)]) ("tidyverse")).1
      7 (by decide),
   (C6_cached_import_returns_handle (REnv.mk (fun _ => some 3) (fun _ => some 4))
      (RPMState.mk [("utils", 1), ("base", 2), ("tidyverse", 7)]) ("dplyr")).2
      3 (RPMState.mk [("utils", 1), ("base", 2), ("tidyverse", 7), ("dplyr", 3)])
      [RAction.importAttempt ("dplyr")] (by decide)⟩

/-- C8: when any step of the try block of SurveyMonkeyClient.__init__ raises,
construction ends in sys.exit(1): the outcome is process exit with status 1,
not an exception to the caller and not a constructed client. -/
theorem C8_init_failure_exits_process (env : InitEnv) (e : String)
    (h : initTryBody env = Except.error e) :
    clientInit env = PyOutcome.exited 1 := by
  unfold clientInit
  rw [h]

/-- Witness for C8: an environment where importing rpy2 raises makes the
constructor exit with status 1. -/
theorem C8_witness :
    clientInit (InitEnv.mk (Except.error ("rpy2 missing"))
      (Except.ok (RPMState.mk [])) (fun _ => Except.ok 0)
      (Except.ok ()) none) = PyOutcome.exited 1 :=
  C8_init_failure_exits_process
    (InitEnv.mk (Except.error ("rpy2 missing")) (Except.ok (RPMState.mk []))
      (fun _ => Except.ok 0) (Except.ok ()) none)
    ("rpy2 missing") (by decide)

end Smretriever
